import Mathlib

/-!
Verification of the graph-summary renderer (`igraph/summary.py`,
class `GraphSummary`).

The Python source is shallowly embedded below.  Pure formatting helpers
(`str` on a non-negative int, `str.rjust`, `str.ljust`, `str.lower`) are
given executable Lean counterparts; the graph object is modelled by the
read-only query interface that the renderer consumes; fallible paths of
the source (the `FakeWrapper` object whose methods are declared without a
`self` parameter, `output.extend(None)` on the zero-vertex adjacency-list
early return, `median` on an empty sequence) are modelled with
`Except String`.
-/

/-! ### Decimal rendering of a natural number (Python `str(n)` for `n ≥ 0`) -/

/-- Decimal digit character for `n < 10`. -/
def digitChar (n : Nat) : Char :=
  if n = 0 then '0' else if n = 1 then '1' else if n = 2 then '2'
  else if n = 3 then '3' else if n = 4 then '4' else if n = 5 then '5'
  else if n = 6 then '6' else if n = 7 then '7' else if n = 8 then '8' else '9'

/-- Fuel-driven decimal digit list of a natural number, most significant first. -/
def natToStrAux : Nat → Nat → List Char
  | 0, _ => []
  | f + 1, n =>
    if n < 10 then [digitChar n]
    else natToStrAux f (n / 10) ++ [digitChar (n % 10)]

/-- Python `str(n)` for a non-negative integer `n`. -/
def natToStr (n : Nat) : String := String.mk (natToStrAux (n + 1) n)

/-! ### Python string helpers -/

/-- Python `s.rjust(w)`: left-pad with spaces to width `w`. -/
def rjust (w : Nat) (s : String) : String :=
  String.mk (List.replicate (w - s.length) ' ' ++ s.data)

/-- Python `s.ljust(w)`: right-pad with spaces to width `w`. -/
def ljust (w : Nat) (s : String) : String :=
  String.mk (s.data ++ List.replicate (w - s.length) ' ')

/-- ASCII lower-casing of one character, as Python `str.lower` acts on ASCII. -/
def lowerChar (c : Char) : Char :=
  if 'A' ≤ c ∧ c ≤ 'Z' then Char.ofNat (c.toNat + 32) else c

/-- Python `s.lower()` (ASCII fragment, which covers every format name compared). -/
def lowerStr (s : String) : String := String.mk (s.data.map lowerChar)

/-! ### The line wrapper

`textwrap.TextWrapper` is external standard-library code, so the bounded
wrapper is modelled from the spec; the unbounded (`width=None`) branch is
embedded from the source: the source installs a `FakeWrapper` object whose
`wrap`/`fill` methods are declared without a `self` parameter, so every
bound-method call `self.wrapper.wrap(line)` passes two arguments to a
one-parameter function and raises `TypeError`. -/

/-- Split a character list on spaces. -/
def splitSpacesAux : List Char → List Char → List (List Char)
  | [], cur => [cur.reverse]
  | c :: cs, cur =>
    if c = ' ' then cur.reverse :: splitSpacesAux cs []
    else splitSpacesAux cs (c :: cur)

/-- Whitespace-separated words of a string, empty chunks dropped. -/
def wordsOf (s : String) : List String :=
  ((splitSpacesAux s.data []).filter (fun w => w ≠ [])).map String.mk

/-- Modelled from the spec: the Line Wrapper of §4.5 stands in for the external
`textwrap.TextWrapper` (standard library, not part of this repository): a
greedy word-wrap at `width` columns that never splits at hyphens and prefixes
continuation lines with `indent`. -/
def greedyWrap (width : Nat) (indent : String) (text : String) : List String :=
  match wordsOf text with
  | [] => []
  | w :: ws =>
    let fin := ws.foldl
      (fun (acc : List String × String) word =>
        if acc.2.length + 1 + word.length ≤ width then (acc.1, acc.2 ++ " " ++ word)
        else (acc.1 ++ [acc.2], indent ++ word))
      ([], w)
    fin.1 ++ [fin.2]

/-- Message of the `TypeError` raised when the source calls the zero-parameter
`FakeWrapper.wrap` as a bound method (the `width=None` configuration). -/
def fakeWrapperMsg : String := "TypeError: wrap() takes exactly 1 argument (2 given)"

/-- One wrapper call `self.wrapper.wrap(text)`.  A finite width uses the
(spec-modelled) greedy wrapper; `width=None` reproduces the source's
`FakeWrapper`, whose invocation raises `TypeError`. -/
def wrapperWrap (width : Option Nat) (indent : String) (text : String) :
    Except String (List String) :=
  match width with
  | none => Except.error fakeWrapperMsg
  | some w => Except.ok (greedyWrap w indent text)

/-! ### The read-only graph interface consumed by `GraphSummary` -/

/-- The read-only view of a graph that the summary renderer queries:
counts, directedness, attribute-name lists per level, graph-attribute
values (already string-converted), the `name` vertex attribute contents,
and per-vertex successor lists. -/
structure GraphView where
  vcount : Nat
  edges : List (Nat × Nat)
  directed : Bool
  graphAttrs : List (String × String)
  vertexAttrs : List String
  edgeAttrs : List String
  vertexNames : List String
  adj : List (List Nat)

/-- Python `graph.ecount()`. -/
def GraphView.ecount (g : GraphView) : Nat := g.edges.length

/-- Python `graph.is_named()`: a vertex attribute literally called `name`. -/
def GraphView.isNamed (g : GraphView) : Bool := g.vertexAttrs.contains "name"

/-- Python `graph.is_weighted()`: an edge attribute literally called `weight`. -/
def GraphView.isWeighted (g : GraphView) : Bool := g.edgeAttrs.contains "weight"

/-- The `type` vertex attribute test of the header's fourth code letter. -/
def GraphView.isTyped (g : GraphView) : Bool := g.vertexAttrs.contains "type"

/-- Python `graph.attributes()`: the ordered graph-attribute names. -/
def GraphView.attributes (g : GraphView) : List String := g.graphAttrs.map Prod.fst

/-- Python `graph[attr]` rendered with `str`: the string value of a graph attribute. -/
def GraphView.attrValue (g : GraphView) (n : String) : String :=
  (g.graphAttrs.lookup n).getD ""

/-- Python `graph.successors(v)`. -/
def GraphView.succ (g : GraphView) (v : Nat) : List Nat := g.adj.getD v []

/-- Python `graph.degree(type="out")`: the out-degree of every vertex in order. -/
def GraphView.outDegrees (g : GraphView) : List Nat :=
  (List.range g.vcount).map (fun v => (g.succ v).length)

/-- The graph-level `name` attribute used as the summary title, `""` if absent. -/
def GraphView.title (g : GraphView) : String :=
  if g.attributes.contains "name" then g.attrValue "name" else ""

/-- Well-formedness of a graph view: the adjacency table covers exactly the
vertices, edge endpoints are valid vertex indices, and a named graph has one
name per vertex. -/
def GraphView.WF (g : GraphView) : Prop :=
  g.adj.length = g.vcount ∧
  (∀ e ∈ g.edges, e.1 < g.vcount ∧ e.2 < g.vcount) ∧
  (g.isNamed = true → g.vertexNames.length = g.vcount)

instance (g : GraphView) : Decidable g.WF := by
  unfold GraphView.WF; infer_instance

/-! ### The summary configuration (`GraphSummary.__init__` arguments) -/

/-- The constructor arguments of `GraphSummary`. -/
structure SummaryConfig where
  verbosity : Int
  width : Option Nat
  edgeListFormat : String
  printGraphAttributes : Bool
  printVertexAttributes : Bool
  printEdgeAttributes : Bool

/-- The source lower-cases `edge_list_format` once in `__init__`. -/
def SummaryConfig.fmtLower (cfg : SummaryConfig) : String := lowerStr cfg.edgeListFormat

/-! ### Edge-list renderers (`_construct_edgelist_*`) -/

/-- The arrow glyph: `->` for directed graphs, `--` for undirected. -/
def arrowStr (g : GraphView) : String := if g.directed then "->" else "--"

/-- The fixed first line of every edge-list section (`self._edges_header`). -/
def edgesHeader (g : GraphView) : String :=
  if g.isNamed then "+ edges (vertex names):" else "+ edges:"

/-- Vertex name lookup `names[v]`. -/
def nameOf (g : GraphView) (v : Nat) : String := g.vertexNames.getD v ""

/-- Adjacency-list rows of a named graph: `"%<maxlen>s <arrow> %s"` with the
successors' names joined by `", "`. -/
def adjlistRowsNamed (g : GraphView) : List String :=
  let maxlen := g.vertexNames.foldr (fun s m => max s.length m) 0
  g.vertexNames.enum.map (fun p =>
    rjust maxlen p.2 ++ " " ++ arrowStr g ++ " " ++
      String.intercalate ", " ((g.succ p.1).map (nameOf g)))

/-- Adjacency-list rows of an unnamed graph: `"%<maxlen>d <arrow> %s"` where
`maxlen = len(str(vcount))` and each successor index is also right-justified
to `maxlen`, joined by a single space. -/
def adjlistRowsUnnamed (g : GraphView) : List String :=
  let maxlen := (natToStr g.vcount).length
  (List.range g.vcount).map (fun v =>
    rjust maxlen (natToStr v) ++ " " ++ arrowStr g ++ " " ++
      String.intercalate " " ((g.succ v).map (fun u => rjust maxlen (natToStr u))))

/-- One row per vertex of the adjacency-list section body. -/
def adjlistRows (g : GraphView) : List String :=
  if g.isNamed then adjlistRowsNamed g else adjlistRowsUnnamed g

/-- One step of the column-packing loop
`newrows[i % colheight].append(row.ljust(maxlen))`. -/
def packStep (h ml : Nat) (acc : List (List String)) (p : Nat × String) :
    List (List String) :=
  acc.set (p.1 % h) (acc.getD (p.1 % h) [] ++ [ljust ml p.2])

/-- The packed sub-rows `newrows` built by the source's
`for i, row in enumerate(result[1:]): newrows[i % colheight].append(row.ljust(maxlen))`. -/
def packRows (h ml : Nat) (rows : List String) : List (List String) :=
  rows.enum.foldl (packStep h ml) (List.replicate h [])

/-- Python `max(len(line) for line in rows)` (0 on an empty list, which the
source never reaches). -/
def maxRowLen (rows : List String) : Nat :=
  rows.foldr (fun r m => max r.length m) 0

/-- Ceiling division, the value of `int(ceil(a / float(b)))` for `b > 0`. -/
def ceilDiv (a b : Nat) : Nat := (a + b - 1) / b

/-- The column repacking of adjacency rows (source lines computing `colcount`,
`colheight`, `newrows` and the final `"   ".join`). -/
def repackRows (w : Nat) (rows : List String) : List String :=
  let ml := maxRowLen rows
  let colcount := (w + 3) / (ml + 3)
  if 1 < colcount then
    let colheight := ceilDiv rows.length colcount
    (packRows colheight ml rows).map (String.intercalate "   ")
  else rows

/-- `_construct_edgelist_adjlist`: `none` models the bare `return` (Python
`None`) on a zero-vertex graph; otherwise the edges header followed by the
per-vertex rows, column-repacked when a finite width is configured. -/
def adjlistLines (g : GraphView) (width : Option Nat) : Option (List String) :=
  if g.vcount = 0 then none
  else some (edgesHeader g ::
    (match width with
     | none => adjlistRows g
     | some w => repackRows w (adjlistRows g)))

/-- `_construct_edgelist_compressed`: the edges header and a single line with
every edge in arrow notation, `", "`-joined over names when the graph is
named, space-joined over indices otherwise. -/
def compressedLines (g : GraphView) : List String :=
  let es :=
    if g.isNamed then
      String.intercalate ", "
        (g.edges.map (fun e => nameOf g e.1 ++ arrowStr g ++ nameOf g e.2))
    else
      String.intercalate " "
        (g.edges.map (fun e => natToStr e.1 ++ arrowStr g ++ natToStr e.2))
  [edgesHeader g, es]

/-- `_construct_edgelist_edgelist`: an acknowledged stub returning only the
edges header. -/
def edgelistLines (g : GraphView) : List String := [edgesHeader g]

/-! ### Attribute-table renderers -/

/-- `_construct_graph_attributes`: empty when there are no graph attributes,
otherwise the section header followed by `[[name]]` / value line pairs over
the lexicographically sorted attribute names. -/
def graphAttrLines (g : GraphView) : List String :=
  let attrs := g.attributes
  if attrs = [] then []
  else
    "+ graph attributes:" ::
      (attrs.insertionSort (fun a b => a ≤ b)).flatMap
        (fun n => ["[[" ++ n ++ "]]", g.attrValue n])

/-- `_construct_vertex_attributes`: the vertex attribute names as a set with
`name` discarded; empty output when nothing remains, otherwise only the
section header (the table body is an acknowledged stub). -/
def vertexAttrLines (g : GraphView) : List String :=
  let attrs := g.vertexAttrs.dedup.filter (fun a => a ≠ "name")
  if attrs = [] then [] else ["+ vertex attributes:"]

/-! ### Header builder (`_construct_header`) -/

/-- The header line
`"IGRAPH %(directed)s%(named)s%(weighted)s%(typed)s %(vcount)d %(ecount)d -- %(name)s"`. -/
def headerLine (g : GraphView) : String :=
  "IGRAPH " ++ (if g.directed then "D" else "U") ++
    (if g.isNamed then "N" else "-") ++
    (if g.isWeighted then "W" else "-") ++
    (if g.isTyped then "T" else "-") ++
    " " ++ natToStr g.vcount ++ " " ++ natToStr g.ecount ++ " -- " ++ g.title

/-- The attribute listing items `name (g) / name (v) / name (e)` in source order. -/
def attrListing (g : GraphView) : List String :=
  g.attributes.map (fun n => n ++ " (g)") ++
    g.vertexAttrs.map (fun n => n ++ " (v)") ++
    g.edgeAttrs.map (fun n => n ++ " (e)")

/-- `_construct_header`: the header line, plus the wrapped `+ attr:` listing
when any attribute exists (the wrap call is what can raise under `width=None`). -/
def constructHeader (g : GraphView) (cfg : SummaryConfig) :
    Except String (List String) :=
  if attrListing g = [] then Except.ok [headerLine g]
  else
    (wrapperWrap cfg.width "  "
        ("+ attr: " ++ String.intercalate ", " (attrListing g))).map
      (fun ws => headerLine g :: ws)

/-! ### Format selector and assembly (`__str__`) -/

/-- Modelled from the spec: `median` of `igraph.statistics` (a repository
module not present under `src/`): ascending sort, the single middle value for
an odd-length sequence, the arithmetic mean of the two middle values for an
even-length one, and a failure on empty input. -/
def median (xs : List Nat) : Option ℚ :=
  let s := xs.insertionSort (fun a b => a ≤ b)
  let n := s.length
  if n = 0 then none
  else if n % 2 = 1 then some ((s.getD (n / 2) 0 : Nat) : ℚ)
  else some ((((s.getD (n / 2 - 1) 0 : Nat) : ℚ) + ((s.getD (n / 2) 0 : Nat) : ℚ)) / 2)

/-- The `edge_list_format == "auto"` selector of `__str__`: `edgelist` when
per-edge attribute printing is enabled and edge attributes exist, otherwise
`compressed` when the median out-degree is below 3, else `adjlist`. -/
def autoSelect (g : GraphView) (cfg : SummaryConfig) : Except String String :=
  if cfg.printEdgeAttributes = true ∧ g.edgeAttrs ≠ [] then Except.ok "edgelist"
  else
    match median g.outDegrees with
    | none => Except.error "ValueError: median of an empty sequence"
    | some m => if m < 3 then Except.ok "compressed" else Except.ok "adjlist"

/-- The effective edge-list format: the selector's choice under `auto`,
otherwise the lower-cased configured name. -/
def resolveFormat (g : GraphView) (cfg : SummaryConfig) : Except String String :=
  if cfg.fmtLower = "auto" then autoSelect g cfg else Except.ok cfg.fmtLower

/-- Message of the `TypeError` raised by `output.extend(None)` when the
zero-vertex adjacency-list renderer returns `None`. -/
def noneTypeMsg : String := "TypeError: 'NoneType' object is not iterable"

/-- The name dispatch `hasattr(self, "_construct_edgelist_%s" % format)`:
one of the three known strategies appends its lines (the adjacency strategy's
`None` return would crash the caller), any other name appends nothing. -/
def dispatchEdgeLines (g : GraphView) (width : Option Nat) (fmt : String) :
    Except String (List String) :=
  if fmt = "compressed" then Except.ok (compressedLines g)
  else if fmt = "adjlist" then
    match adjlistLines g width with
    | some ls => Except.ok ls
    | none => Except.error noneTypeMsg
  else if fmt = "edgelist" then Except.ok (edgelistLines g)
  else Except.ok []

/-- The logical lines accumulated by `__str__` before its final wrapping pass:
the header alone at `verbosity ≤ 0`, otherwise header, attribute tables and
the edge-list section for a graph with edges. -/
def summaryPreWrapLines (g : GraphView) (cfg : SummaryConfig) :
    Except String (List String) :=
  match constructHeader g cfg with
  | Except.error e => Except.error e
  | Except.ok hdr =>
    if cfg.verbosity ≤ 0 then Except.ok hdr
    else
      let o2 := hdr ++ (if cfg.printGraphAttributes then graphAttrLines g else []) ++
        (if cfg.printVertexAttributes then vertexAttrLines g else [])
      if 0 < g.ecount then
        match resolveFormat g cfg with
        | Except.error e => Except.error e
        | Except.ok fmt =>
          match dispatchEdgeLines g cfg.width fmt with
          | Except.error e => Except.error e
          | Except.ok el => Except.ok (o2 ++ el)
      else Except.ok o2

/-- The same pipeline with the edge-list section skipped entirely, the
comparison object of the unrecognized-format claim. -/
def summaryPreWrapLinesNoEdges (g : GraphView) (cfg : SummaryConfig) :
    Except String (List String) :=
  match constructHeader g cfg with
  | Except.error e => Except.error e
  | Except.ok hdr =>
    if cfg.verbosity ≤ 0 then Except.ok hdr
    else
      Except.ok (hdr ++ (if cfg.printGraphAttributes then graphAttrLines g else []) ++
        (if cfg.printVertexAttributes then vertexAttrLines g else []))

/-- The final wrapping pass of `__str__`: each accumulated line wrapped
independently with an empty continuation indent. -/
def wrapAllLines (width : Option Nat) (lines : List String) :
    Except String (List (List String)) :=
  lines.mapM (fun l => wrapperWrap width "" l)

/-- The tail of `__str__`: join the header directly at `verbosity ≤ 0`,
otherwise wrap every line and join the pieces with newlines. -/
def finishStr (cfg : SummaryConfig) (pre : Except String (List String)) :
    Except String String :=
  match pre with
  | Except.error e => Except.error e
  | Except.ok out =>
    if cfg.verbosity ≤ 0 then Except.ok (String.intercalate "\n" out)
    else
      match wrapAllLines cfg.width out with
      | Except.error e => Except.error e
      | Except.ok ws =>
        Except.ok (String.intercalate "\n" (ws.map (String.intercalate "\n")))

/-- `str(GraphSummary(graph, ...))`: the full rendered summary. -/
def summaryStr (g : GraphView) (cfg : SummaryConfig) : Except String String :=
  finishStr cfg (summaryPreWrapLines g cfg)

/-- The full rendering with the edge-list section skipped entirely. -/
def summaryStrNoEdges (g : GraphView) (cfg : SummaryConfig) : Except String String :=
  finishStr cfg (summaryPreWrapLinesNoEdges g cfg)

/-! ### Claim-side reading orders and row formats -/

/-- Row-major reading of packed sub-rows: all cells of the first sub-row left
to right, then the second sub-row, and so on. -/
def rowMajorRead (nr : List (List String)) : List String := nr.flatten

/-- The largest cell count of any packed sub-row. -/
def maxCellCount (nr : List (List String)) : Nat :=
  nr.foldr (fun r m => max r.length m) 0

/-- Column-major reading of packed sub-rows: cell `c` of every sub-row top to
bottom, for `c = 0, 1, …`, skipping sub-rows that have no cell `c`. -/
def colMajorRead (nr : List (List String)) : List String :=
  (List.range (maxCellCount nr)).flatMap (fun c => nr.filterMap (fun r => r[c]?))

/-- The adjacency row format asserted by the claim for unnamed graphs: labels
right-justified to the decimal-digit count of the largest vertex index. -/
def adjlistRowClaim (g : GraphView) (v : Nat) : String :=
  rjust ((natToStr (g.vcount - 1)).length) (natToStr v) ++ " " ++ arrowStr g ++ " " ++
    String.intercalate " "
      ((g.succ v).map (fun u => rjust ((natToStr (g.vcount - 1)).length) (natToStr u)))

/-! ### Concrete graphs and configurations used as witnesses -/

/-- Scenario A: undirected, unnamed, unweighted, 4 vertices, 5 edges, no attributes. -/
def g45 : GraphView :=
  { vcount := 4, edges := [(0,1),(0,2),(0,3),(1,2),(1,3)], directed := false,
    graphAttrs := [], vertexAttrs := [], edgeAttrs := [], vertexNames := [],
    adj := [[1,2,3],[0,2,3],[0,1],[0,1]] }

/-- A one-vertex graph whose only feature is a single graph attribute. -/
def gFoo : GraphView :=
  { vcount := 1, edges := [], directed := false,
    graphAttrs := [("foo","bar")], vertexAttrs := [], edgeAttrs := [],
    vertexNames := [], adj := [[]] }

/-- An unnamed edgeless graph with ten vertices. -/
def gTen : GraphView :=
  { vcount := 10, edges := [], directed := false,
    graphAttrs := [], vertexAttrs := [], edgeAttrs := [], vertexNames := [],
    adj := List.replicate 10 [] }

/-- The zero-vertex graph. -/
def gEmpty : GraphView :=
  { vcount := 0, edges := [], directed := false,
    graphAttrs := [], vertexAttrs := [], edgeAttrs := [], vertexNames := [],
    adj := [] }

/-- An undirected 4-cycle on unnamed vertices. -/
def g4cyc : GraphView :=
  { vcount := 4, edges := [(0,1),(1,2),(2,3),(3,0)], directed := false,
    graphAttrs := [], vertexAttrs := [], edgeAttrs := [], vertexNames := [],
    adj := [[1],[2],[3],[0]] }

/-- A directed multigraph whose out-degree sequence is `[1,1,1,5]` (median 1). -/
def gMed1 : GraphView :=
  { vcount := 4, edges := [(0,1),(1,2),(2,3),(3,0),(3,1),(3,2),(3,3),(3,0)],
    directed := true, graphAttrs := [], vertexAttrs := [], edgeAttrs := [],
    vertexNames := [], adj := [[1],[2],[3],[0,1,2,3,0]] }

/-- A directed graph whose out-degree sequence is `[4,4,4,4]` (median 4). -/
def gMed4 : GraphView :=
  { vcount := 4,
    edges := [(0,0),(0,1),(0,2),(0,3),(1,0),(1,1),(1,2),(1,3),
              (2,0),(2,1),(2,2),(2,3),(3,0),(3,1),(3,2),(3,3)],
    directed := true, graphAttrs := [], vertexAttrs := [], edgeAttrs := [],
    vertexNames := [], adj := [[0,1,2,3],[0,1,2,3],[0,1,2,3],[0,1,2,3]] }

/-- A graph with one edge whose edge attribute list is non-empty. -/
def gEdgeAttr : GraphView :=
  { vcount := 2, edges := [(0,1)], directed := true,
    graphAttrs := [], vertexAttrs := [], edgeAttrs := ["weight"],
    vertexNames := [], adj := [[1],[]] }

/-- A graph with vertex attributes `name` and `color`. -/
def gVA : GraphView :=
  { vcount := 1, edges := [], directed := false,
    graphAttrs := [], vertexAttrs := ["name","color"], edgeAttrs := [],
    vertexNames := ["a"], adj := [[]] }

/-- A graph with two graph attributes listed out of order. -/
def gAttr2 : GraphView :=
  { vcount := 1, edges := [], directed := false,
    graphAttrs := [("b","2"),("a","1")], vertexAttrs := [], edgeAttrs := [],
    vertexNames := [], adj := [[]] }

/-- Verbosity-0 configuration with the default width 78. -/
def cfgV0 : SummaryConfig :=
  { verbosity := 0, width := some 78, edgeListFormat := "auto",
    printGraphAttributes := true, printVertexAttributes := true,
    printEdgeAttributes := true }

/-- Verbosity-1 configuration with unbounded width. -/
def cfgNone1 : SummaryConfig :=
  { verbosity := 1, width := none, edgeListFormat := "auto",
    printGraphAttributes := true, printVertexAttributes := true,
    printEdgeAttributes := true }

/-- Verbosity-1 configuration with an unrecognized edge-list format. -/
def cfgBogus : SummaryConfig :=
  { verbosity := 1, width := some 78, edgeListFormat := "bogus",
    printGraphAttributes := true, printVertexAttributes := true,
    printEdgeAttributes := true }

/-- Verbosity-1 configuration selecting the automatic edge-list format. -/
def cfgAuto : SummaryConfig :=
  { verbosity := 1, width := some 78, edgeListFormat := "auto",
    printGraphAttributes := true, printVertexAttributes := true,
    printEdgeAttributes := true }

/-! ### Basic facts about the helpers -/

theorem natToStrAux_irrel : ∀ f₁ f₂ n, n < f₁ → n < f₂ →
    natToStrAux f₁ n = natToStrAux f₂ n := by
  intro f₁
  induction f₁ with
  | zero => intro f₂ n h; omega
  | succ f ih =>
    intro f₂ n h₁ h₂
    match f₂, h₂ with
    | f₂' + 1, h₂ =>
      by_cases hlt : n < 10
      · simp [natToStrAux, hlt]
      · have hstep : n / 10 < n := Nat.div_lt_self (by omega) (by omega)
        simp only [natToStrAux, if_neg hlt]
        rw [ih f₂' (n / 10) (by omega) (by omega)]

theorem natToStr_len_pos (n : Nat) : 0 < (natToStr n).length := by
  unfold natToStr
  show 0 < (natToStrAux (n + 1) n).length
  match n with
  | n =>
    by_cases h : n < 10
    · simp [natToStrAux, h]
    · simp [natToStrAux, h]

theorem natToStr_step {n : Nat} (h : ¬ n < 10) :
    natToStr n = String.mk ((natToStrAux (n / 10 + 1) (n / 10)) ++ [digitChar (n % 10)]) := by
  unfold natToStr
  congr 1
  have h10 : 0 < n := by omega
  have : natToStrAux (n + 1) n = natToStrAux n (n / 10) ++ [digitChar (n % 10)] := by
    simp [natToStrAux, h]
  rw [this]
  congr 1
  exact natToStrAux_irrel n (n / 10 + 1) (n / 10) (by
    have := Nat.div_lt_self h10 (show 1 < 10 by omega); omega) (by omega)

theorem natToStr_len_mono : ∀ {v n : Nat}, v ≤ n →
    (natToStr v).length ≤ (natToStr n).length := by
  intro v
  induction v using Nat.strong_induction_on with
  | _ v ih =>
    intro n hvn
    by_cases hv : v < 10
    · have hlv : (natToStr v).length = 1 := by
        simp [natToStr, natToStrAux, hv]
      rw [hlv]
      exact natToStr_len_pos n
    · have hn : ¬ n < 10 := by omega
      rw [natToStr_step hv, natToStr_step hn]
      show ((natToStrAux (v / 10 + 1) (v / 10)) ++ [digitChar (v % 10)]).length ≤
        ((natToStrAux (n / 10 + 1) (n / 10)) ++ [digitChar (n % 10)]).length
      simp only [List.length_append, List.length_cons, List.length_nil]
      have hd : v / 10 < v := Nat.div_lt_self (by omega) (by omega)
      have := ih (v / 10) hd (n := n / 10) (Nat.div_le_div_right hvn)
      simpa [natToStr] using this

theorem rjust_length (w : Nat) (s : String) : (rjust w s).length = max w s.length := by
  have h1 : (rjust w s).length = (w - s.length) + s.data.length := by
    show (List.replicate (w - s.length) ' ' ++ s.data).length = _
    simp
  have h2 : s.length = s.data.length := rfl
  omega

theorem rjust_length_of_le {w : Nat} {s : String} (h : s.length ≤ w) :
    (rjust w s).length = w := by
  rw [rjust_length]; omega

/-! ### Small `Except` plumbing facts -/

instance {ε α : Type} [DecidableEq ε] [DecidableEq α] : DecidableEq (Except ε α) := fun x y =>
  match x, y with
  | Except.error a, Except.error b =>
    if h : a = b then isTrue (congrArg Except.error h)
    else isFalse (fun hc => h (by injection hc))
  | Except.error _, Except.ok _ => isFalse (fun hc => Except.noConfusion hc)
  | Except.ok _, Except.error _ => isFalse (fun hc => Except.noConfusion hc)
  | Except.ok a, Except.ok b =>
    if h : a = b then isTrue (congrArg Except.ok h)
    else isFalse (fun hc => h (by injection hc))

theorem except_bind_ok {ε α β : Type} (a : α) (f : α → Except ε β) :
    (Except.ok a : Except ε α) >>= f = f a := rfl

theorem except_bind_error {ε α β : Type} (e : ε) (f : α → Except ε β) :
    (Except.error e : Except ε α) >>= f = Except.error e := rfl

theorem wrapAllLines_some_ok (w : Nat) : ∀ lines : List String,
    wrapAllLines (some w) lines = Except.ok (lines.map (greedyWrap w "")) := by
  intro lines
  induction lines with
  | nil => rfl
  | cons a l ih =>
    simp only [wrapAllLines, List.mapM_cons] at *
    rw [show wrapperWrap (some w) "" a = Except.ok (greedyWrap w "" a) from rfl]
    simp only [except_bind_ok] at *
    rw [ih]
    rfl

theorem wrapAllLines_none_error (a : String) (l : List String) :
    wrapAllLines none (a :: l) = Except.error fakeWrapperMsg := by
  simp only [wrapAllLines, List.mapM_cons]
  rw [show wrapperWrap none "" a = Except.error fakeWrapperMsg from rfl]
  rfl

/-! ### Claim C1 — scenario A header string -/

/-- C1: every undirected, unnamed, unweighted, untyped graph view with 4
vertices, 5 edges and no graph/vertex/edge attributes renders, at
`verbosity = 0`, to exactly the string `"IGRAPH U--- 4 5 -- "`, with the
trailing space after `--` kept for the empty title. -/
theorem C1_scenarioA_header (g : GraphView) (cfg : SummaryConfig)
    (hdir : g.directed = false) (hga : g.graphAttrs = [])
    (hva : g.vertexAttrs = []) (hea : g.edgeAttrs = [])
    (hv : g.vcount = 4) (he : g.edges.length = 5)
    (hverb : cfg.verbosity = 0) :
    summaryStr g cfg = Except.ok "IGRAPH U--- 4 5 -- " := by
  have hattr : attrListing g = [] := by
    simp [attrListing, GraphView.attributes, hga, hva, hea]
  have hhdr : headerLine g = "IGRAPH U--- 4 5 -- " := by
    simp only [headerLine, GraphView.isNamed, GraphView.isWeighted, GraphView.isTyped,
      GraphView.attributes, GraphView.title, GraphView.ecount,
      hdir, hga, hva, hea, hv, he, List.map_nil, List.contains_nil,
      Bool.false_eq_true, if_false]
    decide
  simp only [summaryStr, finishStr, summaryPreWrapLines, constructHeader,
    hattr, hverb, if_pos (le_refl (0 : Int)), if_pos rfl]
  rw [hhdr]
  rfl

/-- Witness for C1 at the concrete scenario-A graph. -/
theorem C1_scenarioA_header_witness :
    summaryStr g45 cfgV0 = Except.ok "IGRAPH U--- 4 5 -- " :=
  C1_scenarioA_header g45 cfgV0 rfl rfl rfl rfl rfl rfl rfl

/-! ### Claim C4 — verbosity 0 line count -/

theorem headerLine_ne_empty (g : GraphView) : headerLine g ≠ "" := by
  intro h
  have hlen : (headerLine g).length = 0 := by rw [h]; rfl
  have h7 : ("IGRAPH " : String).length = 7 := rfl
  simp only [headerLine, String.length_append] at hlen
  omega

/-- C4 counterexample: a graph with a single graph attribute already yields
two non-empty logical lines at `verbosity = 0` (the header and the `+ attr:`
listing), refuting "exactly one non-empty logical line regardless of how many
attributes the graph has". -/
theorem C4_cex_attr_line :
    summaryPreWrapLines gFoo cfgV0 =
      Except.ok ["IGRAPH U--- 1 0 -- ", "+ attr: foo (g)"] ∧
    ((["IGRAPH U--- 1 0 -- ", "+ attr: foo (g)"] : List String).filter
        (fun l => l ≠ "")).length ≠ 1 := by
  constructor
  · decide
  · decide

/-- C4 (amended): for every graph with no graph, vertex or edge attributes
and every configuration with `verbosity = 0`, the rendered output consists of
exactly one non-empty logical line, the header line; a graph with attributes
additionally receives the `+ attr:` listing line(s). -/
theorem C4_verbosity0_single_line (g : GraphView) (cfg : SummaryConfig)
    (hverb : cfg.verbosity = 0) (hga : g.graphAttrs = [])
    (hva : g.vertexAttrs = []) (hea : g.edgeAttrs = []) :
    summaryPreWrapLines g cfg = Except.ok [headerLine g] ∧
    (([headerLine g]).filter (fun l => l ≠ "")).length = 1 := by
  have hattr : attrListing g = [] := by
    simp [attrListing, GraphView.attributes, hga, hva, hea]
  constructor
  · simp [summaryPreWrapLines, constructHeader, hattr, hverb]
  · simp [headerLine_ne_empty g]

/-- Witness for the amended C4 at the concrete scenario-A graph. -/
theorem C4_verbosity0_single_line_witness :
    summaryPreWrapLines g45 cfgV0 = Except.ok [headerLine g45] ∧
    (([headerLine g45]).filter (fun l => l ≠ "")).length = 1 :=
  C4_verbosity0_single_line g45 cfgV0 rfl rfl rfl rfl

/-! ### Claim C5 — the `width=None` FakeWrapper defect -/

theorem constructHeader_none_cases (g : GraphView) (cfg : SummaryConfig)
    (hw : cfg.width = none) :
    constructHeader g cfg = Except.ok [headerLine g] ∨
    constructHeader g cfg = Except.error fakeWrapperMsg := by
  unfold constructHeader
  by_cases h : attrListing g = []
  · left; simp [h]
  · right; simp [h, hw, wrapperWrap, Except.map]

theorem median_of_ne_nil (xs : List Nat) (h : xs ≠ []) : ∃ m, median xs = some m := by
  simp only [median]
  split_ifs with h0 h1
  · exact absurd
      (List.length_eq_zero.mp (by rw [← List.length_insertionSort (fun a b => a ≤ b) xs]; exact h0)) h
  · exact ⟨_, rfl⟩
  · exact ⟨_, rfl⟩

theorem resolveFormat_ok (g : GraphView) (cfg : SummaryConfig)
    (hdeg : g.outDegrees ≠ []) : ∃ f, resolveFormat g cfg = Except.ok f := by
  unfold resolveFormat autoSelect
  by_cases hauto : cfg.fmtLower = "auto"
  · rw [if_pos hauto]
    by_cases hea : cfg.printEdgeAttributes = true ∧ g.edgeAttrs ≠ []
    · rw [if_pos hea]; exact ⟨_, rfl⟩
    · rw [if_neg hea]
      obtain ⟨m, hm⟩ := median_of_ne_nil g.outDegrees hdeg
      rw [hm]
      show ∃ f, (if m < 3 then Except.ok "compressed" else Except.ok "adjlist") = Except.ok f
      by_cases hlt : m < 3
      · rw [if_pos hlt]; exact ⟨_, rfl⟩
      · rw [if_neg hlt]; exact ⟨_, rfl⟩
  · rw [if_neg hauto]; exact ⟨_, rfl⟩

theorem dispatchEdgeLines_ok (g : GraphView) (w : Option Nat) (fmt : String)
    (hv : 0 < g.vcount) : ∃ ls, dispatchEdgeLines g w fmt = Except.ok ls := by
  unfold dispatchEdgeLines
  by_cases h1 : fmt = "compressed"
  · rw [if_pos h1]; exact ⟨_, rfl⟩
  · rw [if_neg h1]
    by_cases h2 : fmt = "adjlist"
    · have hvne : ¬ g.vcount = 0 := by omega
      rw [if_pos h2]
      simp only [adjlistLines, hvne, if_false]
      exact ⟨_, rfl⟩
    · rw [if_neg h2]
      by_cases h3 : fmt = "edgelist"
      · rw [if_pos h3]; exact ⟨_, rfl⟩
      · rw [if_neg h3]; exact ⟨_, rfl⟩

theorem finishStr_none_error (cfg : SummaryConfig) (hw : cfg.width = none)
    (hnotle : ¬ cfg.verbosity ≤ 0) (a : String) (l : List String) :
    finishStr cfg (Except.ok (a :: l)) = Except.error fakeWrapperMsg := by
  simp [finishStr, hnotle, hw, wrapAllLines_none_error]

/-- C5: the claim that `width = None` never splits a line is the documented
intent, but the code cannot deliver it: `FakeWrapper.wrap` and
`FakeWrapper.fill` are declared without a `self` parameter, so the bound
method call `self.wrapper.wrap(line)` raises `TypeError` whenever the wrapper
is consulted — for every well-formed graph, any rendering with `width = None`
at `verbosity ≥ 1` fails instead of returning the unsplit lines. -/
theorem C5_width_none_type_error (g : GraphView) (cfg : SummaryConfig)
    (hwf : g.WF) (hw : cfg.width = none) (hv : 1 ≤ cfg.verbosity) :
    summaryStr g cfg = Except.error fakeWrapperMsg := by
  have hnotle : ¬ cfg.verbosity ≤ 0 := by omega
  rcases constructHeader_none_cases g cfg hw with hok | herr
  · unfold summaryStr summaryPreWrapLines
    rw [hok]
    simp only [hnotle, if_false]
    by_cases hec : 0 < g.ecount
    · have hvc : 0 < g.vcount := by
        have hne : g.edges ≠ [] := List.length_pos.mp hec
        obtain ⟨e, he⟩ := List.exists_mem_of_ne_nil g.edges hne
        have := hwf.2.1 e he
        omega
      have hlendeg : g.outDegrees.length = g.vcount := by
        simp [GraphView.outDegrees]
      have hdeg : g.outDegrees ≠ [] := by
        intro hnil
        rw [hnil] at hlendeg
        simp at hlendeg
        omega
      obtain ⟨f, hf⟩ := resolveFormat_ok g cfg hdeg
      obtain ⟨el, hel⟩ := dispatchEdgeLines_ok g cfg.width f hvc
      simp only [hec, if_true, hf, hel]
      rw [show ([headerLine g] ++
        (if cfg.printGraphAttributes = true then graphAttrLines g else []) ++
        (if cfg.printVertexAttributes = true then vertexAttrLines g else []) ++ el) =
        headerLine g ::
          ((if cfg.printGraphAttributes = true then graphAttrLines g else []) ++
            (if cfg.printVertexAttributes = true then vertexAttrLines g else []) ++ el)
        from by simp]
      exact finishStr_none_error cfg hw hnotle _ _
    · simp only [hec, if_false]
      rw [show ([headerLine g] ++
        (if cfg.printGraphAttributes = true then graphAttrLines g else []) ++
        (if cfg.printVertexAttributes = true then vertexAttrLines g else [])) =
        headerLine g ::
          ((if cfg.printGraphAttributes = true then graphAttrLines g else []) ++
            (if cfg.printVertexAttributes = true then vertexAttrLines g else []))
        from by simp]
      exact finishStr_none_error cfg hw hnotle _ _
  · unfold summaryStr summaryPreWrapLines
    rw [herr]
    rfl

/-- Witness for C5 at the scenario-A graph with `width = None`, `verbosity = 1`. -/
theorem C5_width_none_type_error_witness :
    summaryStr g45 cfgNone1 = Except.error fakeWrapperMsg :=
  C5_width_none_type_error g45 cfgNone1 (by decide) rfl (by decide)

/-! ### Claim C7 — unrecognized explicit edge-list format -/

theorem wrapAllLines_some_isOk (w : Nat) (lines : List String) :
    ∃ ws, wrapAllLines (some w) lines = Except.ok ws :=
  ⟨_, wrapAllLines_some_ok w lines⟩

/-- C7: with edges present and an explicit `edgeListFormat` that normalizes to
none of `auto`, `compressed`, `adjlist`, `edgelist`, the renderer appends no
edge-list section and raises nothing extra: the output equals the rendering
with the edge section skipped entirely, and with a finite width the rendering
succeeds. -/
theorem C7_unknown_format_silent (g : GraphView) (cfg : SummaryConfig)
    (hec : 0 < g.ecount)
    (hfmt : cfg.fmtLower ∉ (["auto", "compressed", "adjlist", "edgelist"] : List String)) :
    summaryStr g cfg = summaryStrNoEdges g cfg ∧
    (∀ w, cfg.width = some w → ∃ s, summaryStr g cfg = Except.ok s) := by
  have hauto : cfg.fmtLower ≠ "auto" := by intro h; exact hfmt (by rw [h]; simp)
  have hcomp : cfg.fmtLower ≠ "compressed" := by intro h; exact hfmt (by rw [h]; simp)
  have hadj : cfg.fmtLower ≠ "adjlist" := by intro h; exact hfmt (by rw [h]; simp)
  have hedge : cfg.fmtLower ≠ "edgelist" := by intro h; exact hfmt (by rw [h]; simp)
  have hres : resolveFormat g cfg = Except.ok cfg.fmtLower := by
    unfold resolveFormat; rw [if_neg hauto]
  have hdisp : dispatchEdgeLines g cfg.width cfg.fmtLower = Except.ok [] := by
    unfold dispatchEdgeLines
    rw [if_neg hcomp, if_neg hadj, if_neg hedge]
  have hpre : summaryPreWrapLines g cfg = summaryPreWrapLinesNoEdges g cfg := by
    unfold summaryPreWrapLines summaryPreWrapLinesNoEdges
    cases hh : constructHeader g cfg with
    | error e => rfl
    | ok hdr =>
      by_cases hverb : cfg.verbosity ≤ 0
      · simp only [hverb, if_true]
      · simp only [hverb, if_false, hec, if_true, hres, hdisp, List.append_nil]
  have hokhdr : ∀ w, cfg.width = some w → ∃ hdr, constructHeader g cfg = Except.ok hdr := by
    intro w hw
    unfold constructHeader
    by_cases ha : attrListing g = []
    · rw [if_pos ha]; exact ⟨_, rfl⟩
    · rw [if_neg ha, hw]; exact ⟨_, rfl⟩
  have hokpre : ∀ w, cfg.width = some w →
      ∃ out, summaryPreWrapLinesNoEdges g cfg = Except.ok out := by
    intro w hw
    obtain ⟨hdr, hh⟩ := hokhdr w hw
    unfold summaryPreWrapLinesNoEdges
    simp only [hh]
    by_cases hverb : cfg.verbosity ≤ 0
    · rw [if_pos hverb]; exact ⟨_, rfl⟩
    · rw [if_neg hverb]; exact ⟨_, rfl⟩
  constructor
  · unfold summaryStr summaryStrNoEdges
    rw [hpre]
  · intro w hw
    obtain ⟨out, hout⟩ := hokpre w hw
    unfold summaryStr finishStr
    rw [hpre]
    simp only [hout]
    by_cases hverb : cfg.verbosity ≤ 0
    · rw [if_pos hverb]; exact ⟨_, rfl⟩
    · rw [if_neg hverb, hw, wrapAllLines_some_ok w out]
      exact ⟨_, rfl⟩

/-- Witness for C7 at the scenario-A graph with format `"bogus"`. -/
theorem C7_unknown_format_silent_witness :
    summaryStr g45 cfgBogus = summaryStrNoEdges g45 cfgBogus ∧
    (∀ w, cfgBogus.width = some w → ∃ s, summaryStr g45 cfgBogus = Except.ok s) :=
  C7_unknown_format_silent g45 cfgBogus (by decide) (by decide)

/-! ### Claim C2 — the automatic format selector -/

/-- C2: for a graph with edges under `edgeListFormat = "auto"`, the selector
returns `edgelist` when per-edge attribute printing is enabled and edge
attributes exist, otherwise `compressed` exactly when the median out-degree
(the sorted-sequence midpoint, averaging the two middle values on even
length) is strictly below 3 and `adjlist` otherwise; in particular
out-degrees `[1,1,1,5]` select `compressed` and `[4,4,4,4]` select `adjlist`. -/
theorem C2_auto_selector :
    (∀ (g : GraphView) (cfg : SummaryConfig), cfg.fmtLower = "auto" → 0 < g.ecount →
      ((cfg.printEdgeAttributes = true ∧ g.edgeAttrs ≠ []) →
        resolveFormat g cfg = Except.ok "edgelist") ∧
      (¬ (cfg.printEdgeAttributes = true ∧ g.edgeAttrs ≠ []) →
        ∀ m, median g.outDegrees = some m →
          resolveFormat g cfg = Except.ok (if m < 3 then "compressed" else "adjlist"))) ∧
    median gMed1.outDegrees = some 1 ∧
    resolveFormat gMed1 cfgAuto = Except.ok "compressed" ∧
    median gMed4.outDegrees = some 4 ∧
    resolveFormat gMed4 cfgAuto = Except.ok "adjlist" := by
  have hgen : ∀ (g : GraphView) (cfg : SummaryConfig), cfg.fmtLower = "auto" →
      ¬ (cfg.printEdgeAttributes = true ∧ g.edgeAttrs ≠ []) →
      ∀ m, median g.outDegrees = some m →
        resolveFormat g cfg = Except.ok (if m < 3 then "compressed" else "adjlist") := by
    intro g cfg hauto hea m hm
    unfold resolveFormat autoSelect
    rw [if_pos hauto, if_neg hea, hm]
    show (if m < 3 then Except.ok "compressed" else Except.ok "adjlist") = _
    by_cases hlt : m < 3
    · rw [if_pos hlt, if_pos hlt]
    · rw [if_neg hlt, if_neg hlt]
  have hm1 : median gMed1.outDegrees = some 1 := by
    rw [show gMed1.outDegrees = [1,1,1,5] from by decide]
    norm_num [median, List.insertionSort, List.orderedInsert]
  have hm4 : median gMed4.outDegrees = some 4 := by
    rw [show gMed4.outDegrees = [4,4,4,4] from by decide]
    norm_num [median, List.insertionSort, List.orderedInsert]
  refine ⟨?_, hm1, ?_, hm4, ?_⟩
  · intro g cfg hauto hec
    constructor
    · intro hea
      unfold resolveFormat autoSelect
      rw [if_pos hauto, if_pos hea]
    · exact fun hea m hm => hgen g cfg hauto hea m hm
  · rw [hgen gMed1 cfgAuto (by decide) (by decide) 1 hm1]
    norm_num
  · rw [hgen gMed4 cfgAuto (by decide) (by decide) 4 hm4]
    norm_num

/-- Witness for C2: a graph with an edge attribute and per-edge printing
enabled makes the auto selector return the `edgelist` strategy. -/
theorem C2_auto_selector_witness :
    resolveFormat gEdgeAttr cfgAuto = Except.ok "edgelist" :=
  (C2_auto_selector.1 gEdgeAttr cfgAuto (by decide) (by decide)).1 (by decide)

/-! ### Claim C6 — the edges header as first line of every strategy -/

/-- C6 counterexample: on the zero-vertex graph the adjacency-list strategy
takes the early `return` and produces no output at all — in particular no
first line equal to the edges header — so the invariant fails for `adjlist`. -/
theorem C6_cex_empty_graph_adjlist :
    adjlistLines gEmpty (some 78) = none ∧ edgesHeader gEmpty = "+ edges:" := by
  constructor
  · decide
  · decide

/-- C6 (amended): the `compressed` and `edgelist` strategies always start with
the fixed edges header, and the `adjlist` strategy does so for every graph
with at least one vertex (on a zero-vertex graph it returns nothing at all);
the header varies only with named versus unnamed. -/
theorem C6_edges_header_first (g : GraphView) (w : Option Nat) :
    (compressedLines g).headD "" = edgesHeader g ∧
    (edgelistLines g).headD "" = edgesHeader g ∧
    (0 < g.vcount → ∃ ls, adjlistLines g w = some ls ∧ ls.headD "" = edgesHeader g) ∧
    (g.isNamed = true → edgesHeader g = "+ edges (vertex names):") ∧
    (g.isNamed = false → edgesHeader g = "+ edges:") := by
  refine ⟨rfl, rfl, ?_, ?_, ?_⟩
  · intro hv
    have hvne : ¬ g.vcount = 0 := by omega
    unfold adjlistLines
    rw [if_neg hvne]
    exact ⟨_, rfl, rfl⟩
  · intro h; unfold edgesHeader; rw [h]; rfl
  · intro h; unfold edgesHeader; rw [h]; rfl

/-- Witness for the amended C6 at the scenario-A graph. -/
theorem C6_edges_header_first_witness :
    ∃ ls, adjlistLines g45 (some 78) = some ls ∧ ls.headD "" = edgesHeader g45 :=
  (C6_edges_header_first g45 (some 78)).2.2.1 (by decide)

/-! ### Claim C9 — the graph-attribute table -/

/-- C9: the graph-attribute renderer returns nothing when there are no graph
attributes, and otherwise the `+ graph attributes:` header followed, in
lexicographically ascending name order, by a `[[name]]` line and a value line
per attribute. -/
theorem C9_graph_attributes (g : GraphView) :
    (g.attributes = [] → graphAttrLines g = []) ∧
    (g.attributes ≠ [] → ∃ sorted : List String,
      List.Perm sorted g.attributes ∧ sorted.Sorted (· ≤ ·) ∧
      graphAttrLines g = "+ graph attributes:" ::
        sorted.flatMap (fun n => ["[[" ++ n ++ "]]", g.attrValue n])) := by
  constructor
  · intro h
    unfold graphAttrLines
    rw [if_pos h]
  · intro h
    refine ⟨g.attributes.insertionSort (fun a b => a ≤ b),
      List.perm_insertionSort _ _, List.sorted_insertionSort _ _, ?_⟩
    unfold graphAttrLines
    rw [if_neg h]

/-- Witness for C9 at a graph with two out-of-order graph attributes. -/
theorem C9_graph_attributes_witness :
    ∃ sorted : List String,
      List.Perm sorted gAttr2.attributes ∧ sorted.Sorted (· ≤ ·) ∧
      graphAttrLines gAttr2 = "+ graph attributes:" ::
        sorted.flatMap (fun n => ["[[" ++ n ++ "]]", gAttr2.attrValue n]) :=
  (C9_graph_attributes gAttr2).2 (by decide)

/-! ### Claim C10 — the vertex-attribute stub -/

/-- C10: with no vertex attribute other than `name` (in particular when `name`
is the only one) the vertex-attribute renderer emits nothing, not even the
section header; with at least one other vertex attribute it emits exactly the
single line `+ vertex attributes:`. -/
theorem C10_vertex_attributes (g : GraphView) :
    ((∀ a ∈ g.vertexAttrs, a = "name") → vertexAttrLines g = []) ∧
    ((∃ a ∈ g.vertexAttrs, a ≠ "name") → vertexAttrLines g = ["+ vertex attributes:"]) := by
  constructor
  · intro h
    unfold vertexAttrLines
    have hnil : g.vertexAttrs.dedup.filter (fun a => a ≠ "name") = [] := by
      rw [List.filter_eq_nil_iff]
      intro a ha
      have := h a (List.mem_dedup.mp ha)
      simp [this]
    rw [if_pos hnil]
  · intro ⟨a, ha, hne⟩
    unfold vertexAttrLines
    have hmem : a ∈ g.vertexAttrs.dedup.filter (fun a => a ≠ "name") := by
      rw [List.mem_filter]
      exact ⟨List.mem_dedup.mpr ha, by simp [hne]⟩
    have hnenil : g.vertexAttrs.dedup.filter (fun a => a ≠ "name") ≠ [] := by
      intro hc; rw [hc] at hmem; exact List.not_mem_nil a hmem
    rw [if_neg hnenil]

/-- Witness for C10: the graph whose vertex attributes are `name` and `color`
renders exactly the section header. -/
theorem C10_vertex_attributes_witness :
    vertexAttrLines gVA = ["+ vertex attributes:"] :=
  (C10_vertex_attributes gVA).2 ⟨"color", by decide, by decide⟩

/-! ### Claim C8 — unnamed adjacency rows and label justification -/

theorem getD_map_range (n : Nat) (f : Nat → String) (v : Nat) (h : v < n) :
    (((List.range n).map f).getD v "") = f v := by
  rw [List.getD_eq_getElem?_getD, List.getElem?_map, List.getElem?_range h]
  rfl

/-- C8 counterexample: on an unnamed graph with 10 vertices the source pads
labels to `len(str(vcount)) = 2`, producing the row `" 0 -- "`, while the
claim's width — the digit count of the largest vertex index 9 — would give
`"0 -- "`; the two disagree. -/
theorem C8_cex_ten_vertices :
    (((adjlistLines gTen none).getD []).getD 1 "") = " 0 -- " ∧
    adjlistRowClaim gTen 0 = "0 -- " ∧
    (((adjlistLines gTen none).getD []).getD 1 "") ≠ adjlistRowClaim gTen 0 := by
  refine ⟨by decide, by decide, by decide⟩

/-- C8 (amended): for every unnamed graph with at least one vertex the
adjacency-list strategy (before column repacking) renders the edges header and
one row per vertex of the form `<label> <arrow> <successor labels>`, with
every label right-justified to the decimal-digit count of the vertex count
(not of the largest index), so that each label field has that exact width and
the arrows align in a column. -/
theorem C8_unnamed_adjlist_rows (g : GraphView)
    (hnamed : g.isNamed = false) (hv : 0 < g.vcount) :
    ∃ rows, adjlistLines g none = some (edgesHeader g :: rows) ∧
      rows.length = g.vcount ∧
      (∀ v, v < g.vcount →
        rows.getD v "" =
          rjust ((natToStr g.vcount).length) (natToStr v) ++ " " ++ arrowStr g ++ " " ++
            String.intercalate " "
              ((g.succ v).map (fun u => rjust ((natToStr g.vcount).length) (natToStr u))) ∧
        (rjust ((natToStr g.vcount).length) (natToStr v)).length =
          (natToStr g.vcount).length) := by
  have hvne : ¬ g.vcount = 0 := by omega
  refine ⟨adjlistRowsUnnamed g, ?_, ?_, ?_⟩
  · unfold adjlistLines
    rw [if_neg hvne]
    unfold adjlistRows
    rw [hnamed]
    rfl
  · unfold adjlistRowsUnnamed
    simp
  · intro v hvlt
    constructor
    · unfold adjlistRowsUnnamed
      exact getD_map_range g.vcount _ v hvlt
    · exact rjust_length_of_le (natToStr_len_mono (Nat.le_of_lt hvlt))

/-- Witness for the amended C8 at the ten-vertex unnamed graph. -/
theorem C8_unnamed_adjlist_rows_witness :
    ∃ rows, adjlistLines gTen none = some (edgesHeader gTen :: rows) ∧
      rows.length = gTen.vcount ∧
      (∀ v, v < gTen.vcount →
        rows.getD v "" =
          rjust ((natToStr gTen.vcount).length) (natToStr v) ++ " " ++ arrowStr gTen ++ " " ++
            String.intercalate " "
              ((gTen.succ v).map (fun u => rjust ((natToStr gTen.vcount).length) (natToStr u))) ∧
        (rjust ((natToStr gTen.vcount).length) (natToStr v)).length =
          (natToStr gTen.vcount).length) :=
  C8_unnamed_adjlist_rows gTen (by decide) (by decide)

/-! ### Claim C3 — column packing and reading orders

The packed sub-rows `packRows h ml rows` are characterized by a reference
distribution `bucketFrom`: sub-row `j` collects, in order, the cells whose
enumeration index is congruent to `j` modulo `h`. -/

/-- Sub-row `j` of the packing: the cells of the list whose enumeration index
(starting at `s`) is congruent to `j` modulo `h`, in order, each padded by `f`. -/
def bucketFrom (h : Nat) (f : String → String) : Nat → List String → Nat → List String
  | _, [], _ => []
  | s, c :: cs, j => (if s % h = j then [f c] else []) ++ bucketFrom h f (s + 1) cs j

theorem getD_set {α : Type} (l : List α) (k j : Nat) (v d : α) (hk : k < l.length) :
    (l.set k v).getD j d = if k = j then v else l.getD j d := by
  rw [List.getD_eq_getElem?_getD, List.getD_eq_getElem?_getD, List.getElem?_set]
  by_cases h : k = j
  · rw [if_pos h, if_pos h, if_pos (by rw [← h] at *; exact hk)]
    rfl
  · rw [if_neg h, if_neg h]

theorem getD_replicate_nil (h j : Nat) :
    (List.replicate h ([] : List String)).getD j ([] : List String) = [] := by
  rw [List.getD_eq_getElem?_getD, List.getElem?_replicate]
  by_cases hj : j < h
  · rw [if_pos hj]; rfl
  · rw [if_neg hj]; rfl

theorem packFold_length (h ml : Nat) :
    ∀ (ps : List (Nat × String)) (acc : List (List String)),
      (ps.foldl (packStep h ml) acc).length = acc.length := by
  intro ps
  induction ps with
  | nil => intro acc; rfl
  | cons p ps ih =>
    intro acc
    rw [List.foldl_cons, ih]
    simp [packStep]

theorem packFold_getD (h ml : Nat) (hpos : 0 < h) :
    ∀ (cells : List String) (s : Nat) (acc : List (List String)), acc.length = h →
      ∀ j, ((List.enumFrom s cells).foldl (packStep h ml) acc).getD j [] =
        acc.getD j [] ++ bucketFrom h (ljust ml) s cells j := by
  intro cells
  induction cells with
  | nil =>
    intro s acc hlen j
    show acc.getD j [] = acc.getD j [] ++ []
    rw [List.append_nil]
  | cons c cs ih =>
    intro s acc hlen j
    rw [show List.enumFrom s (c :: cs) = (s, c) :: List.enumFrom (s + 1) cs from rfl,
      List.foldl_cons]
    have hlen' : (packStep h ml acc (s, c)).length = h := by simp [packStep, hlen]
    rw [ih (s + 1) (packStep h ml acc (s, c)) hlen' j]
    have hmod : s % h < acc.length := by rw [hlen]; exact Nat.mod_lt s hpos
    show (acc.set (s % h) (acc.getD (s % h) [] ++ [ljust ml c])).getD j [] ++ _ = _
    rw [getD_set acc (s % h) j _ [] hmod]
    show _ = acc.getD j [] ++ ((if s % h = j then [ljust ml c] else []) ++ _)
    by_cases hj : s % h = j
    · rw [if_pos hj, if_pos hj, hj]
      simp [List.append_assoc]
    · rw [if_neg hj, if_neg hj]
      simp

theorem packRows_length (h ml : Nat) (rows : List String) :
    (packRows h ml rows).length = h := by
  unfold packRows
  rw [packFold_length]
  simp

theorem packRows_getD (h ml : Nat) (hpos : 0 < h) (rows : List String) (j : Nat) :
    (packRows h ml rows).getD j [] = bucketFrom h (ljust ml) 0 rows j := by
  unfold packRows
  rw [show rows.enum = List.enumFrom 0 rows from rfl]
  rw [packFold_getD h ml hpos rows 0 (List.replicate h []) (by simp) j]
  rw [getD_replicate_nil h j]
  rfl

theorem packRows_eq_map (h ml : Nat) (hpos : 0 < h) (rows : List String) :
    packRows h ml rows =
      (List.range h).map (fun j => bucketFrom h (ljust ml) 0 rows j) := by
  apply List.ext_getElem
  · rw [packRows_length]; simp
  · intro i h1 h2
    rw [← List.getD_eq_getElem (packRows h ml rows) [] h1]
    rw [packRows_getD h ml hpos rows i]
    rw [List.getElem_map, List.getElem_range]

theorem bucketFrom_shift (h : Nat) (f : String → String) :
    ∀ (cs : List String) (s j : Nat), bucketFrom h f (s + h) cs j = bucketFrom h f s cs j := by
  intro cs
  induction cs with
  | nil => intro s j; rfl
  | cons c cs ih =>
    intro s j
    show (if (s + h) % h = j then [f c] else []) ++ bucketFrom h f (s + h + 1) cs j =
      (if s % h = j then [f c] else []) ++ bucketFrom h f (s + 1) cs j
    rw [Nat.add_mod_right, show s + h + 1 = (s + 1) + h from by omega, ih (s + 1) j]

theorem bucketFrom_append (h : Nat) (f : String → String) :
    ∀ (pre rest : List String) (s j : Nat),
      bucketFrom h f s (pre ++ rest) j =
        bucketFrom h f s pre j ++ bucketFrom h f (s + pre.length) rest j := by
  intro pre
  induction pre with
  | nil =>
    intro rest s j
    show bucketFrom h f s rest j = [] ++ bucketFrom h f (s + 0) rest j
    rw [List.nil_append, Nat.add_zero]
  | cons c cs ih =>
    intro rest s j
    show (if s % h = j then [f c] else []) ++ bucketFrom h f (s + 1) (cs ++ rest) j =
      ((if s % h = j then [f c] else []) ++ bucketFrom h f (s + 1) cs j) ++
        bucketFrom h f (s + (c :: cs).length) rest j
    rw [ih rest (s + 1) j, List.append_assoc,
      show s + (c :: cs).length = s + 1 + cs.length from by
        simp only [List.length_cons]; omega]

theorem bucketFrom_lt_nil (h : Nat) (f : String → String) :
    ∀ (cs : List String) (s j : Nat), s + cs.length ≤ h → j < s →
      bucketFrom h f s cs j = [] := by
  intro cs
  induction cs with
  | nil => intro s j _ _; rfl
  | cons c cs ih =>
    intro s j hlen hj
    have hs : s < h := by simp only [List.length_cons] at hlen; omega
    show (if s % h = j then [f c] else []) ++ bucketFrom h f (s + 1) cs j = []
    rw [Nat.mod_eq_of_lt hs, if_neg (by omega),
      ih (s + 1) j (by simp only [List.length_cons] at hlen; omega) (by omega)]
    rfl

theorem bucketFrom_small (h : Nat) (f : String → String) :
    ∀ (cs : List String) (s j : Nat), s + cs.length ≤ h → s ≤ j →
      bucketFrom h f s cs j =
        if j < s + cs.length then [f (cs.getD (j - s) "")] else [] := by
  intro cs
  induction cs with
  | nil =>
    intro s j hlen hj
    show ([] : List String) = if j < s + ([] : List String).length then _ else []
    rw [List.length_nil, Nat.add_zero, if_neg (by omega)]
  | cons c cs ih =>
    intro s j hlen hj
    have hs : s < h := by simp only [List.length_cons] at hlen; omega
    show (if s % h = j then [f c] else []) ++ bucketFrom h f (s + 1) cs j = _
    rw [Nat.mod_eq_of_lt hs]
    by_cases hje : s = j
    · rw [if_pos hje,
        bucketFrom_lt_nil h f cs (s + 1) j
          (by simp only [List.length_cons] at hlen; omega) (by omega),
        if_pos (by simp only [List.length_cons]; omega)]
      subst hje
      simp
    · rw [if_neg hje,
        ih (s + 1) j (by simp only [List.length_cons] at hlen; omega) (by omega)]
      by_cases hjlt : j < s + 1 + cs.length
      · rw [if_pos hjlt, if_pos (by simp only [List.length_cons]; omega)]
        rw [show j - s = (j - (s + 1)) + 1 from by omega]
        simp [List.getD_cons_succ]
      · rw [if_neg hjlt, if_neg (by simp only [List.length_cons]; omega)]
        rfl

theorem bucketFrom_peel (h : Nat) (_hpos : 0 < h) (f : String → String)
    (cells : List String) (hle : h ≤ cells.length) (j : Nat) (hj : j < h) :
    bucketFrom h f 0 cells j =
      f ((cells.take h).getD j "") :: bucketFrom h f 0 (cells.drop h) j := by
  have hlen : (cells.take h).length = h := by rw [List.length_take]; omega
  conv_lhs => rw [← List.take_append_drop h cells]
  rw [bucketFrom_append h f (cells.take h) (cells.drop h) 0 j]
  rw [bucketFrom_small h f (cells.take h) 0 j (by rw [hlen]; omega) (Nat.zero_le j)]
  rw [if_pos (by rw [hlen]; omega)]
  rw [hlen, bucketFrom_shift h f (cells.drop h) 0 j]
  simp

theorem maxCellCount_nil : maxCellCount [] = 0 := rfl

theorem maxCellCount_cons (x : List String) (xs : List (List String)) :
    maxCellCount (x :: xs) = max x.length (maxCellCount xs) := rfl

theorem maxCellCount_all_nil :
    ∀ (l : List (List String)), (∀ r ∈ l, r = []) → maxCellCount l = 0 := by
  intro l
  induction l with
  | nil => intro _; rfl
  | cons x xs ih =>
    intro hall
    rw [maxCellCount_cons, hall x (by simp), ih (fun r hr => hall r (by simp [hr]))]
    rfl

theorem maxCellCount_le (n : Nat) :
    ∀ (l : List (List String)), (∀ r ∈ l, r.length ≤ n) → maxCellCount l ≤ n := by
  intro l
  induction l with
  | nil => intro _; exact Nat.zero_le n
  | cons x xs ih =>
    intro hall
    rw [maxCellCount_cons]
    have h1 := hall x (by simp)
    have h2 := ih (fun r hr => hall r (by simp [hr]))
    omega

theorem length_le_maxCellCount :
    ∀ (l : List (List String)) (r : List String), r ∈ l → r.length ≤ maxCellCount l := by
  intro l
  induction l with
  | nil => intro r hr; exact absurd hr (List.not_mem_nil r)
  | cons x xs ih =>
    intro r hr
    rw [maxCellCount_cons]
    rcases List.mem_cons.mp hr with h | h
    · subst h; omega
    · have := ih r h; omega

theorem maxCellCount_map_cons (a : Nat → String) (t : Nat → List String) :
    ∀ (l : List Nat), l ≠ [] →
      maxCellCount (l.map (fun j => a j :: t j)) = maxCellCount (l.map t) + 1 := by
  intro l
  induction l with
  | nil => intro hc; exact absurd rfl hc
  | cons x xs ih =>
    intro _
    rw [List.map_cons, List.map_cons, maxCellCount_cons, maxCellCount_cons]
    by_cases hxs : xs = []
    · subst hxs
      simp only [List.map_nil, maxCellCount_nil, List.length_cons]
      omega
    · rw [ih hxs]
      simp only [List.length_cons]
      omega

theorem filterMap_some_eq_map {α β : Type} (g : α → β) (l : List α) :
    l.filterMap (fun x => some (g x)) = l.map g := by
  induction l with
  | nil => rfl
  | cons x xs ih => simp [List.filterMap_cons, ih]

theorem filterMap_none_eq_nil {α β : Type} (f : α → Option β) :
    ∀ (l : List α), (∀ x ∈ l, f x = none) → l.filterMap f = [] := by
  intro l
  induction l with
  | nil => intro _; rfl
  | cons x xs ih =>
    intro hall
    rw [List.filterMap_cons, hall x (by simp), ih (fun r hr => hall r (by simp [hr]))]

theorem map_getD_range {α : Type} (l : List α) (d : α) :
    (List.range l.length).map (fun i => l.getD i d) = l := by
  apply List.ext_getElem
  · simp
  · intro i h1 h2
    simp only [List.getElem_map, List.getElem_range]
    exact List.getD_eq_getElem l d h2

theorem flatMap_map_eq {α β γ : Type} (l : List α) (f : α → β) (g : β → List γ) :
    (l.map f).flatMap g = l.flatMap (fun x => g (f x)) := by
  induction l with
  | nil => rfl
  | cons x xs ih => simp [List.flatMap_cons, ih]

theorem colMajorRead_map_cons (h : Nat) (hpos : 0 < h)
    (a : Nat → String) (t : Nat → List String) :
    colMajorRead ((List.range h).map (fun j => a j :: t j)) =
      (List.range h).map a ++ colMajorRead ((List.range h).map t) := by
  have hne : List.range h ≠ [] := by
    intro hc
    have := List.range_eq_nil.mp hc
    omega
  have hsucc : ∀ c : Nat,
      ((List.range h).map (fun j => a j :: t j)).filterMap (fun r => r[c + 1]?) =
        ((List.range h).map t).filterMap (fun r => r[c]?) := by
    intro c
    rw [List.filterMap_map, List.filterMap_map]
    have hfun : ((fun r : List String => r[c + 1]?) ∘ fun j => a j :: t j) =
        ((fun r : List String => r[c]?) ∘ t) := by
      funext j
      show (a j :: t j)[c + 1]? = (t j)[c]?
      exact List.getElem?_cons_succ
    rw [hfun]
  unfold colMajorRead
  rw [maxCellCount_map_cons a t (List.range h) hne]
  rw [List.range_succ_eq_map, List.flatMap_cons]
  congr 1
  · rw [List.filterMap_map]
    show (List.range h).filterMap
        ((fun r : List String => r[0]?) ∘ fun j => a j :: t j) = (List.range h).map a
    have hzero : ((fun r : List String => r[0]?) ∘ fun j => a j :: t j) =
        (fun j => some (a j)) := by
      funext j
      show (a j :: t j)[0]? = some (a j)
      exact List.getElem?_cons_zero
    rw [hzero, filterMap_some_eq_map]
  · rw [flatMap_map_eq]
    congr 1
    funext c
    exact hsucc c

theorem colMajorRead_bucket_small (h : Nat) (hpos : 0 < h) (f : String → String)
    (cells : List String) (hle : cells.length ≤ h) :
    colMajorRead ((List.range h).map (fun j => bucketFrom h f 0 cells j)) = cells.map f := by
  by_cases hnil : cells = []
  · subst hnil
    unfold colMajorRead
    rw [maxCellCount_all_nil _ (by
      intro r hr
      obtain ⟨j, _, hj⟩ := List.mem_map.mp hr
      rw [← hj]
      rfl)]
    rfl
  · have hrw : (List.range h).map (fun j => bucketFrom h f 0 cells j) =
        (List.range h).map
          (fun j => if j < cells.length then [f (cells.getD j "")] else []) := by
      apply List.map_congr_left
      intro j _
      rw [bucketFrom_small h f cells 0 j (by omega) (Nat.zero_le j)]
      simp
    rw [hrw]
    have hlen0 : 0 < cells.length := List.length_pos.mpr hnil
    have hmax : maxCellCount ((List.range h).map
        (fun j => if j < cells.length then [f (cells.getD j "")] else [])) = 1 := by
      apply Nat.le_antisymm
      · apply maxCellCount_le
        intro r hr
        obtain ⟨j, _, hj⟩ := List.mem_map.mp hr
        rw [← hj]
        by_cases hjl : j < cells.length
        · rw [if_pos hjl]; exact Nat.le_refl 1
        · rw [if_neg hjl]; exact Nat.zero_le 1
      · have hmem : ([f (cells.getD 0 "")]) ∈ (List.range h).map
            (fun j => if j < cells.length then [f (cells.getD j "")] else []) := by
          apply List.mem_map.mpr
          exact ⟨0, List.mem_range.mpr hpos, by rw [if_pos hlen0]⟩
        have := length_le_maxCellCount _ _ hmem
        simpa using this
    unfold colMajorRead
    rw [hmax]
    show List.flatMap (List.range 1) _ = _
    rw [show List.range 1 = [0] from rfl]
    rw [show List.flatMap [0] (fun c => List.filterMap (fun r => r[c]?)
        ((List.range h).map (fun j => if j < cells.length then [f (cells.getD j "")] else []))) =
      List.filterMap (fun r => r[0]?)
        ((List.range h).map (fun j => if j < cells.length then [f (cells.getD j "")] else [])) ++ []
      from rfl]
    rw [List.append_nil, List.filterMap_map]
    have hbody : ((fun r : List String => r[0]?) ∘
        fun j => if j < cells.length then [f (cells.getD j "")] else []) =
        (fun j => if j < cells.length then some (f (cells.getD j "")) else none) := by
      funext j
      by_cases hjl : j < cells.length
      · show (if j < cells.length then [f (cells.getD j "")] else [])[0]? = _
        rw [if_pos hjl, if_pos hjl]
        exact List.getElem?_cons_zero
      · show (if j < cells.length then [f (cells.getD j "")] else [])[0]? = _
        rw [if_neg hjl, if_neg hjl]
        rfl
    rw [hbody]
    rw [show h = cells.length + (h - cells.length) from by omega, List.range_add,
      List.filterMap_append]
    have hfirst : (List.range cells.length).filterMap
        (fun j => if j < cells.length then some (f (cells.getD j "")) else none) =
        (List.range cells.length).map (fun j => f (cells.getD j "")) := by
      rw [← filterMap_some_eq_map]
      apply List.filterMap_congr
      intro j hj
      rw [if_pos (List.mem_range.mp hj)]
    have hsecond : ((List.range (h - cells.length)).map (fun x => cells.length + x)).filterMap
        (fun j => if j < cells.length then some (f (cells.getD j "")) else none) = [] := by
      apply filterMap_none_eq_nil
      intro x hx
      obtain ⟨k, _, hk⟩ := List.mem_map.mp hx
      rw [← hk, if_neg (by omega)]
    rw [hfirst, hsecond, List.append_nil]
    have hmm : (List.range cells.length).map (fun j => f (cells.getD j "")) =
        ((List.range cells.length).map (fun j => cells.getD j "")).map f := by
      rw [List.map_map]
      rfl
    rw [hmm, map_getD_range cells ""]

theorem colMajorRead_bucket (h : Nat) (hpos : 0 < h) (f : String → String) :
    ∀ (cells : List String),
      colMajorRead ((List.range h).map (fun j => bucketFrom h f 0 cells j)) = cells.map f := by
  have H : ∀ (n : Nat) (cells : List String), cells.length = n →
      colMajorRead ((List.range h).map (fun j => bucketFrom h f 0 cells j)) = cells.map f := by
    intro n
    induction n using Nat.strong_induction_on with
    | _ n ih =>
      intro cells hn
      by_cases hle : cells.length ≤ h
      · exact colMajorRead_bucket_small h hpos f cells hle
      · have hrw : ((List.range h).map (fun j => bucketFrom h f 0 cells j)) =
            (List.range h).map
              (fun j => f ((cells.take h).getD j "") :: bucketFrom h f 0 (cells.drop h) j) := by
          apply List.map_congr_left
          intro j hj
          exact bucketFrom_peel h hpos f cells (by omega) j (List.mem_range.mp hj)
        rw [hrw, colMajorRead_map_cons h hpos _ _]
        rw [ih (cells.drop h).length (by rw [List.length_drop]; omega) (cells.drop h) rfl]
        have hlen : (cells.take h).length = h := by rw [List.length_take]; omega
        have hheads : (List.range h).map (fun j => f ((cells.take h).getD j "")) =
            (cells.take h).map f := by
          have hmm : (List.range h).map (fun j => f ((cells.take h).getD j "")) =
              ((List.range h).map (fun j => (cells.take h).getD j "")).map f := by
            rw [List.map_map]
            rfl
          rw [hmm, show List.range h = List.range (cells.take h).length from by rw [hlen],
            map_getD_range (cells.take h) ""]
        rw [hheads, ← List.map_append, List.take_append_drop]
  exact fun cells => H cells.length cells rfl

/-- C3 counterexample: for the undirected 4-cycle's adjacency rows and
width 15 the packing uses 2 columns of height 2; reading the packed sub-rows
in row-major order across columns yields the rows in the order 0, 2, 1, 3 —
not the original per-vertex sequence — so the claim's reading order does not
reconstruct the row sequence. -/
theorem C3_cex_row_major_reading :
    1 < (15 + 3) / (maxRowLen (adjlistRows g4cyc) + 3) ∧
    rowMajorRead (packRows
        (ceilDiv (adjlistRows g4cyc).length ((15 + 3) / (maxRowLen (adjlistRows g4cyc) + 3)))
        (maxRowLen (adjlistRows g4cyc)) (adjlistRows g4cyc)) ≠
      (adjlistRows g4cyc).map (ljust (maxRowLen (adjlistRows g4cyc))) := by
  refine ⟨by decide, by decide⟩

/-- C3 (amended): for every positive column height the packed sub-rows contain
exactly the original rows, each left-justified to the cell width; reading them
column-major (top to bottom within a column, columns left to right) — rather
than row-major — reconstructs the original per-vertex row sequence exactly,
with no row dropped, duplicated, or reordered, and each cell's non-padding
prefix is the original row. -/
theorem C3_column_major_roundtrip (h ml : Nat) (rows : List String) (hpos : 0 < h) :
    colMajorRead (packRows h ml rows) = rows.map (ljust ml) ∧
    ∀ r ∈ rows, (ljust ml r).data.take r.data.length = r.data := by
  constructor
  · rw [packRows_eq_map h ml hpos rows]
    exact colMajorRead_bucket h hpos (ljust ml) rows
  · intro r _
    show (r.data ++ List.replicate (ml - r.length) ' ').take r.data.length = r.data
    exact List.take_left r.data _

/-- Witness for the amended C3 at the 4-cycle packing with 2 columns. -/
theorem C3_column_major_roundtrip_witness :
    colMajorRead (packRows 2 6 (adjlistRows g4cyc)) = (adjlistRows g4cyc).map (ljust 6) ∧
    ∀ r ∈ adjlistRows g4cyc, (ljust 6 r).data.take r.data.length = r.data :=
  C3_column_major_roundtrip 2 6 (adjlistRows g4cyc) (by decide)
